import Mathlib

/-!
Verification of the download-and-extract tool in `Exercises/Exercise-1/main.py`.

The program fetches a fixed list of remote zip archives over HTTP into a
`downloads` directory, extracts each archive into that directory, deletes the
archive, and offers three orchestration strategies (sequential, thread pool,
asyncio).  The shallow embedding below models:

  * the filesystem as a function from paths to optional byte lists;
  * the network and the zip library as oracles collected in an `Env`;
  * Python exceptions as an explicit `Except PyExc` channel — a function that
    can raise an exception that its callers do not catch returns
    `Except PyExc α`, and every `try/except` of the source is mirrored by
    which constructors are mapped back to normal results.

Removal of a file (`os.remove`) is assumed to succeed; the write oracle
`writeOk` models `open(..., 'wb')`/write failures (OSError), and `mkdirOk`
models `Path.mkdir` failures.
-/

/-- A filesystem path, split as the Python code builds it:
`downloads_dir / filename`. -/
structure FPath where
  dir : String
  name : String
deriving DecidableEq, Repr

/-- The filesystem: contents (byte list) of each existing file. -/
def FS : Type := FPath → Option (List Nat)

/-- The empty filesystem. -/
def fsEmpty : FS := fun _ => none

/-- Create or overwrite a file. -/
def fsWrite (fs : FS) (p : FPath) (d : List Nat) : FS :=
  fun q => if q = p then some d else fs q

/-- Delete a file (`os.remove`, assumed to succeed). -/
def fsRemove (fs : FS) (p : FPath) : FS :=
  fun q => if q = p then none else fs q

/-- Python exceptions that cross function boundaries in this program.
`requestException` covers `requests.exceptions.RequestException` (HTTP error
status raised by `raise_for_status` and transport errors); `badZipFile` is
`zipfile.BadZipFile`; `osError` covers directory-creation and file-write
failures. -/
inductive PyExc
  | requestException
  | badZipFile
  | osError
deriving DecidableEq, Repr

/-- Outcome of one HTTP GET, as the fetching code observes it:
a 2xx response with the full body, a non-2xx status (raised by
`raise_for_status` before the target file is opened), a transport error
before any body byte is written, or a transport error in the middle of the
body (a partially written file remains). -/
inductive HttpResult
  | ok (bytes : List Nat)
  | statusError
  | transportEarly
  | transportMid (written : List Nat)
deriving DecidableEq, Repr

/-- The oracles the program interacts with: the blocking HTTP client
(`requests.get uri timeout`), the asyncio HTTP client (`session.get` with a
`ClientTimeout`), the zip central-directory parser (`none` = `BadZipFile`),
the bytes an extracted entry gets on disk, and the success of file writes
and of creating the downloads directory. -/
structure Env where
  http : String → Nat → HttpResult
  httpAsync : String → Nat → HttpResult
  parseZip : List Nat → Option (List String)
  entryBytes : String → List Nat
  writeOk : FPath → Bool
  mkdirOk : Bool

/-- Timeout of `requests.get(uri, stream=True, timeout=30)`. -/
def request_timeout_sync : Nat := 30

/-- Timeout of `aiohttp.ClientTimeout(total=60)`. -/
def request_timeout_async : Nat := 60

/-- Chunk size of `response.iter_content(chunk_size=8192)` and
`response.content.iter_chunked(8192)`. -/
def chunk_size : Nat := 8192

/-- Fuel-driven chunking of a byte list: `iter_content`/`iter_chunked`
yields the body in chunks of at most `n` bytes.  The fuel argument only
forces termination; with `fuel ≥ l.length` and `0 < n` it never runs out. -/
def chunksOfFuel : Nat → Nat → List Nat → List (List Nat)
  | _, _, [] => []
  | 0, _, l => [l]
  | Nat.succ fuel, n, l => l.take n :: chunksOfFuel fuel n (l.drop n)

/-- The chunks of the response body, as the streaming loop sees them. -/
def chunksOf (n : Nat) (l : List Nat) : List (List Nat) :=
  chunksOfFuel l.length n l

/-- The file contents produced by the write loop
`for chunk in ...: f.write(chunk)`. -/
def writeChunks (chunks : List (List Nat)) : List Nat :=
  chunks.foldl (fun acc c => acc ++ c) []

/-- The segment of the character list after its last separator: the
accumulator holds the current segment reversed, and is reset at each
separator, so the run ends with the final segment. -/
def lastSegmentAux (sep : Char) : List Char → List Char → List Char
  | acc, [] => acc.reverse
  | acc, c :: cs =>
      if c = sep then lastSegmentAux sep [] cs
      else lastSegmentAux sep (c :: acc) cs

/-- `extract_filename_from_uri`: `uri.split('/')[-1]`, the part of the URI
after its last slash. -/
def extract_filename_from_uri (uri : String) : String :=
  String.mk (lastSegmentAux '/' [] uri.data)

/-- Python's `str.strip()`: drop leading and trailing whitespace. -/
def py_strip (s : String) : String :=
  String.mk (((s.data.dropWhile Char.isWhitespace).reverse.dropWhile
    Char.isWhitespace).reverse)

/-- `download_uris`: the configured locator list. -/
def download_uris : List String :=
  [ "https://divvy-tripdata.s3.amazonaws.com/Divvy_Trips_2018_Q4.zip",
    "https://divvy-tripdata.s3.amazonaws.com/Divvy_Trips_2019_Q1.zip",
    "https://divvy-tripdata.s3.amazonaws.com/Divvy_Trips_2019_Q2.zip",
    "https://divvy-tripdata.s3.amazonaws.com/Divvy_Trips_2019_Q3.zip",
    "https://divvy-tripdata.s3.amazonaws.com/Divvy_Trips_2019_Q4.zip",
    "https://divvy-tripdata.s3.amazonaws.com/Divvy_Trips_2020_Q1.zip",
    "https://divvy-tripdata.s3.amazonaws.com/Divvy_Trips_2220_Q1.zip" ]

/-- `create_downloads_directory`: `Path("downloads").mkdir(exist_ok=True)`;
a failure is an uncaught `OSError`. -/
def create_downloads_directory (env : Env) : Except PyExc String :=
  if env.mkdirOk then Except.ok ("downloads") else Except.error PyExc.osError

/-- `download_file_sync`: GET with timeout 30, `raise_for_status`, then
stream the body to `downloads_dir / filename` in 8192-byte chunks.  Only
`requests.exceptions.RequestException` is caught (returning `None`); an
`OSError` from `open`/`write` escapes. -/
def download_file_sync (env : Env) (fs : FS) (uri : String) (downloads_dir : String) :
    FS × Except PyExc (Option FPath) :=
  let filename := extract_filename_from_uri uri
  let filepath : FPath := ⟨downloads_dir, filename⟩
  match env.http uri request_timeout_sync with
  | HttpResult.ok bytes =>
      if env.writeOk filepath then
        (fsWrite fs filepath (writeChunks (chunksOf chunk_size bytes)),
         Except.ok (some filepath))
      else
        (fs, Except.error PyExc.osError)
  | HttpResult.statusError => (fs, Except.ok none)
  | HttpResult.transportEarly => (fs, Except.ok none)
  | HttpResult.transportMid written =>
      if env.writeOk filepath then
        (fsWrite fs filepath written, Except.ok none)
      else
        (fs, Except.error PyExc.osError)

/-- The loop of `zip_ref.extractall(extract_dir)`: write each entry into the
directory, stopping at the first failed write (which raises inside
`extractall`; the caller's blanket `except` then takes over). -/
def extractAll (env : Env) (fs : FS) (dir : String) : List String → FS × Bool
  | [] => (fs, true)
  | name :: rest =>
      if env.writeOk ⟨dir, name⟩ then
        extractAll env (fsWrite fs ⟨dir, name⟩ (env.entryBytes name)) dir rest
      else (fs, false)

/-- `extract_zip_file`: open the archive, extract every entry into the
archive's parent directory, return `namelist()`, and delete the archive.
The `except (BadZipFile, Exception)` clause catches every exception, deletes
the archive if it still exists, and returns `None`. -/
def extract_zip_file (env : Env) (fs : FS) (zip_filepath : FPath) :
    FS × Option (List String) :=
  match fs zip_filepath with
  | none => (fs, none)
  | some bytes =>
      match env.parseZip bytes with
      | none => (fsRemove fs zip_filepath, none)
      | some entries =>
          let r := extractAll env fs zip_filepath.dir entries
          if r.2 then (fsRemove r.1 zip_filepath, some entries)
          else (fsRemove r.1 zip_filepath, none)

/-- `download_and_extract_sync`: fetch, then extract if a path came back.
Exceptions escaping the fetch (OSError) propagate. -/
def download_and_extract_sync (env : Env) (fs : FS) (uri : String) (ddir : String) :
    FS × Except PyExc Unit :=
  let r := download_file_sync env fs uri ddir
  match r.2 with
  | Except.error e => (r.1, Except.error e)
  | Except.ok none => (r.1, Except.ok ())
  | Except.ok (some fp) => ((extract_zip_file env r.1 fp).1, Except.ok ())

/-- Result of the sequential orchestrator: final filesystem, its own result
(an uncaught exception aborts the run), and the locators it attempted,
in order. -/
structure SeqRun where
  fs : FS
  ret : Except PyExc Unit
  attempted : List String

/-- The `for uri in download_uris` loop of `main_sync`: one
`download_and_extract_sync` per locator; an uncaught exception ends the
loop at that locator. -/
def main_sync_loop (env : Env) (fs : FS) (ddir : String) : List String → SeqRun
  | [] => ⟨fs, Except.ok (), []⟩
  | uri :: rest =>
      let r := download_and_extract_sync env fs uri ddir
      match r.2 with
      | Except.error e => ⟨r.1, Except.error e, [uri]⟩
      | Except.ok _ =>
          let k := main_sync_loop env r.1 ddir rest
          ⟨k.fs, k.ret, uri :: k.attempted⟩

/-- `main_sync`: create the downloads directory, then loop over the
configured locators. -/
def main_sync (env : Env) (fs : FS) : SeqRun :=
  match create_downloads_directory env with
  | Except.error e => ⟨fs, Except.error e, []⟩
  | Except.ok ddir => main_sync_loop env fs ddir download_uris

/-- Execute pool jobs in the order the workers happen to run them
(`exec`), collecting each job's own result.  A job that raises records the
exception in its future; the pool never cancels other jobs. -/
def runJobs (env : Env) (fs : FS) (ddir : String) :
    List String → FS × List (String × Except PyExc Unit)
  | [] => (fs, [])
  | uri :: rest =>
      let r := download_and_extract_sync env fs uri ddir
      let k := runJobs env r.1 ddir rest
      (k.1, (uri, r.2) :: k.2)

/-- `Except.ok` test for per-job results. -/
def exceptIsOk : Except PyExc Unit → Bool
  | Except.ok _ => true
  | Except.error _ => false

/-- The `for future in futures: future.result()` loop: re-raise the first
stored exception, scanning futures in submission order. -/
def awaitInOrder (results : List (String × Except PyExc Unit)) :
    List String → Except PyExc Unit
  | [] => Except.ok ()
  | uri :: rest =>
      match results.lookup uri with
      | some (Except.error e) => Except.error e
      | _ => awaitInOrder results rest

/-- The first stored exception in completion order (what
`asyncio.gather` would re-raise). -/
def firstError : List (String × Except PyExc Unit) → Except PyExc Unit
  | [] => Except.ok ()
  | (_, Except.error e) :: _ => Except.error e
  | _ :: rest => firstError rest

/-- Result of a pooled or cooperative run: final filesystem, one result per
submitted unit (keyed by locator, in completion order), and the
orchestrator's own result. -/
structure PoolRun where
  fs : FS
  results : List (String × Except PyExc Unit)
  ret : Except PyExc Unit

/-- `main_threaded`: submit one `download_and_extract_sync` job per locator
of `download_uris` to a 3-worker pool, in list order.  `exec` is the order
in which the workers complete the jobs (any permutation of the submissions;
the model runs each job atomically since the claims do not concern
interleaved filesystem effects).  Exiting the `with` block joins every
submitted job before `future.result()` re-raises the first failure, and
pending futures are never cancelled. -/
def main_threaded (env : Env) (fs : FS) (exec : List String) : PoolRun :=
  match create_downloads_directory env with
  | Except.error e => ⟨fs, [], Except.error e⟩
  | Except.ok ddir =>
      let r := runJobs env fs ddir exec
      ⟨r.1, r.2, awaitInOrder r.2 download_uris⟩

/-- `download_file_async`: GET on the shared session with total timeout 60,
streaming in 8192-byte chunks via `aiofiles`.  The `except Exception`
clause catches everything — including `OSError` from the file write — and
returns `None`. -/
def download_file_async (env : Env) (fs : FS) (uri : String) (ddir : String) :
    FS × Option FPath :=
  let filename := extract_filename_from_uri uri
  let filepath : FPath := ⟨ddir, filename⟩
  match env.httpAsync uri request_timeout_async with
  | HttpResult.ok bytes =>
      if env.writeOk filepath then
        (fsWrite fs filepath (writeChunks (chunksOf chunk_size bytes)), some filepath)
      else
        (fs, none)
  | HttpResult.statusError => (fs, none)
  | HttpResult.transportEarly => (fs, none)
  | HttpResult.transportMid written =>
      if env.writeOk filepath then (fsWrite fs filepath written, none)
      else (fs, none)

/-- `download_and_extract_async`: fetch, then run `extract_zip_file` in an
executor and await it.  The fetch never raises (blanket `except`) and the
extraction handles all of its own exceptions, so the task's result channel
is populated accordingly. -/
def download_and_extract_async (env : Env) (fs : FS) (uri : String) (ddir : String) :
    FS × Except PyExc Unit :=
  let r := download_file_async env fs uri ddir
  match r.2 with
  | none => (r.1, Except.ok ())
  | some fp => ((extract_zip_file env r.1 fp).1, Except.ok ())

/-- Cooperative tasks, run in completion order `exec`, each recording its
result (or stored exception) for `gather`. -/
def runJobsAsync (env : Env) (fs : FS) (ddir : String) :
    List String → FS × List (String × Except PyExc Unit)
  | [] => (fs, [])
  | uri :: rest =>
      let r := download_and_extract_async env fs uri ddir
      let k := runJobsAsync env r.1 ddir rest
      (k.1, (uri, r.2) :: k.2)

/-- `main_async`: create one task per locator of `download_uris` on a shared
session and `asyncio.gather` them. -/
def main_async (env : Env) (fs : FS) (exec : List String) : PoolRun :=
  match create_downloads_directory env with
  | Except.error e => ⟨fs, [], Except.error e⟩
  | Except.ok ddir =>
      let r := runJobsAsync env fs ddir exec
      ⟨r.1, r.2, firstError r.2⟩

/-- The three strategies of the entry point menu. -/
inductive Strategy
  | sequential
  | pooled
  | cooperative
deriving DecidableEq, Repr

/-- What the entry point can observe about standard input: no interactive
terminal (`sys.stdin.isatty()` false), or an interactive prompt whose
`input()` yields a line (`none` models `EOFError`/`KeyboardInterrupt`). -/
inductive StdinState
  | notInteractive
  | interactive (line : Option String)

/-- The dispatch of `main`: non-interactive input runs the sequential
strategy; otherwise the stripped choice selects the strategy, with
sequential as the default and as the `EOFError`/`KeyboardInterrupt`
fallback. -/
def main_strategy : StdinState → Strategy
  | StdinState.notInteractive => Strategy.sequential
  | StdinState.interactive none => Strategy.sequential
  | StdinState.interactive (some line) =>
      let choice := py_strip line
      if choice = "2" then Strategy.pooled
      else if choice = "3" then Strategy.cooperative
      else Strategy.sequential

/-- The per-locator outcome of the sequential unit of work: the information
`download_and_extract_sync` computes and then discards (console-only
reporting). -/
inductive Outcome
  | extracted (entries : List String)
  | fetchFailed
  | extractFailed
  | raised (e : PyExc)
deriving DecidableEq, Repr

/-- Whether the unit of work ended in an uncaught exception. -/
def Outcome.isRaised : Outcome → Bool
  | Outcome.raised _ => true
  | _ => false

/-- `download_and_extract_sync` with its per-locator outcome made explicit:
same control flow, but the fetch failure / extraction result that the
source only prints is kept. -/
def download_and_extract_outcome (env : Env) (fs : FS) (uri : String) (ddir : String) :
    FS × Outcome :=
  let r := download_file_sync env fs uri ddir
  match r.2 with
  | Except.error e => (r.1, Outcome.raised e)
  | Except.ok none => (r.1, Outcome.fetchFailed)
  | Except.ok (some fp) =>
      let x := extract_zip_file env r.1 fp
      match x.2 with
      | some entries => (x.1, Outcome.extracted entries)
      | none => (x.1, Outcome.extractFailed)

/-- An extracted-entries result exists for the locator. -/
def hasResult (o : Outcome) : Prop :=
  ∃ entries, o = Outcome.extracted entries

/-- A non-empty extracted-entries result exists for the locator (the
wording of the spec's testable property). -/
def hasNonemptyResult (o : Outcome) : Prop :=
  ∃ entries, entries ≠ [] ∧ o = Outcome.extracted entries

/-- A failure record exists for the locator. -/
def hasFailureRecord (o : Outcome) : Prop :=
  o = Outcome.fetchFailed ∨ o = Outcome.extractFailed

/-! ### Concrete fixtures for witnesses and counterexamples -/

/-- A sample locator. -/
def uriW : String := "http://host/q4.zip"

/-- A sample archive path. -/
def pW : FPath := ⟨"downloads", "t.zip"⟩

/-- A placeholder path for vacuous disjuncts. -/
def pDummy : FPath := ⟨"", ""⟩

/-- The downloads directory name used for concrete runs. -/
def ddirW : String := "downloads"

/-- All-success environment: every GET returns body `[9]`, which parses as
an archive with entries `a.csv` and `b.csv`; every write succeeds. -/
def envAll : Env where
  http := fun _ _ => HttpResult.ok [9]
  httpAsync := fun _ _ => HttpResult.ok [9]
  parseZip := fun b => if b = [9] then some ["a.csv", "b.csv"] else none
  entryBytes := fun _ => [1]
  writeOk := fun _ => true
  mkdirOk := true

/-- Environment in which every GET gets a non-2xx status. -/
def envFail : Env where
  http := fun _ _ => HttpResult.statusError
  httpAsync := fun _ _ => HttpResult.statusError
  parseZip := fun _ => none
  entryBytes := fun _ => [1]
  writeOk := fun _ => true
  mkdirOk := true

/-- Environment whose downloads are valid archives with no entries. -/
def envEmptyZip : Env where
  http := fun _ _ => HttpResult.ok [5]
  httpAsync := fun _ _ => HttpResult.ok [5]
  parseZip := fun b => if b = [5] then some [] else none
  entryBytes := fun _ => [1]
  writeOk := fun _ => true
  mkdirOk := true

/-- Environment where every download succeeds and parses as an archive with
the single entry `a.csv`, but writing that entry fails. -/
def envEntryWriteFails : Env where
  http := fun _ _ => HttpResult.ok [7]
  httpAsync := fun _ _ => HttpResult.ok [7]
  parseZip := fun b => if b = [7] then some ["a.csv"] else none
  entryBytes := fun _ => [1]
  writeOk := fun q => q.name ≠ "a.csv"
  mkdirOk := true

/-- Environment where every GET succeeds but every file write fails. -/
def envWriteFails : Env where
  http := fun _ _ => HttpResult.ok [7]
  httpAsync := fun _ _ => HttpResult.ok [7]
  parseZip := fun b => if b = [7] then some ["a.csv"] else none
  entryBytes := fun _ => [1]
  writeOk := fun _ => false
  mkdirOk := true

/-- Environment where additionally the downloads directory cannot be
created. -/
def envNoMkdir : Env where
  http := fun _ _ => HttpResult.ok [7]
  httpAsync := fun _ _ => HttpResult.ok [7]
  parseZip := fun b => if b = [7] then some ["a.csv"] else none
  entryBytes := fun _ => [1]
  writeOk := fun _ => false
  mkdirOk := false

/-- A filesystem holding one archive with entries `a.csv`, `b.csv`
(body `[9]`, as `envAll` parses it). -/
def fsWithPair : FS := fsWrite fsEmpty pW [9]

/-- A filesystem holding one empty archive (body `[5]`). -/
def fsWithEmptyZip : FS := fsWrite fsEmpty pW [5]

/-- A filesystem holding one archive with entry `a.csv` (body `[7]`). -/
def fsWithSingle : FS := fsWrite fsEmpty pW [7]

/-! ### Helper lemmas -/

/-- Whatever branch `extract_zip_file` takes, the archive file is gone
afterwards. -/
theorem extract_zip_file_removes (env : Env) (fs : FS) (p : FPath) :
    (extract_zip_file env fs p).1 p = none := by
  unfold extract_zip_file
  cases h : fs p with
  | none => simpa using h
  | some bytes =>
      cases hp : env.parseZip bytes with
      | none => simp [hp, fsRemove]
      | some entries =>
          by_cases hr : (extractAll env fs p.dir entries).2 <;>
            simp [hp, hr, fsRemove]

/-- Folding list appends starting from `acc` concatenates the chunks. -/
theorem foldl_append_eq (cs : List (List Nat)) :
    ∀ acc : List Nat, cs.foldl (fun a c => a ++ c) acc = acc ++ cs.flatten := by
  induction cs with
  | nil => intro acc; simp
  | cons c cs ih => intro acc; simp [ih]

/-- With enough fuel and a positive chunk size, chunking and rejoining the
body is the identity. -/
theorem chunksOfFuel_join :
    ∀ (fuel n : Nat) (l : List Nat), l.length ≤ fuel → 0 < n →
      (chunksOfFuel fuel n l).flatten = l := by
  intro fuel
  induction fuel with
  | zero =>
      intro n l hl _
      have hnil : l = [] := List.length_eq_zero.mp (Nat.le_zero.mp hl)
      subst hnil
      simp [chunksOfFuel]
  | succ fuel ih =>
      intro n l hl hn
      cases l with
      | nil => simp [chunksOfFuel]
      | cons x xs =>
          simp only [chunksOfFuel, List.flatten_cons]
          rw [ih n ((x :: xs).drop n) ?hlen hn]
          · exact List.take_append_drop n (x :: xs)
          case hlen =>
            simp only [List.length_drop, List.length_cons]
            simp only [List.length_cons] at hl
            omega

/-- With enough fuel, every chunk produced has at most `n` bytes. -/
theorem chunksOfFuel_sizes :
    ∀ (fuel n : Nat) (l : List Nat), l.length ≤ fuel → 0 < n →
      ((chunksOfFuel fuel n l).all (fun c => c.length ≤ n)) = true := by
  intro fuel
  induction fuel with
  | zero =>
      intro n l hl _
      have hnil : l = [] := List.length_eq_zero.mp (Nat.le_zero.mp hl)
      subst hnil
      simp [chunksOfFuel]
  | succ fuel ih =>
      intro n l hl hn
      cases l with
      | nil => simp [chunksOfFuel]
      | cons x xs =>
          simp only [chunksOfFuel, List.all_cons, Bool.and_eq_true]
          constructor
          · simp only [decide_eq_true_eq, List.length_take]
            omega
          · apply ih _ _ ?_ hn
            simp only [List.length_drop, List.length_cons]
            simp only [List.length_cons] at hl
            omega

/-- The streamed write reproduces the response body. -/
theorem writeChunks_chunksOf (n : Nat) (hn : 0 < n) (l : List Nat) :
    writeChunks (chunksOf n l) = l := by
  unfold writeChunks chunksOf
  rw [foldl_append_eq, chunksOfFuel_join l.length n l (Nat.le_refl _) hn]
  simp

/-- `extractall` does not touch files whose name is not among the entries. -/
theorem extractAll_unchanged (env : Env) (dir : String) :
    ∀ (entries : List String) (fs : FS) (q : FPath), q.name ∉ entries →
      (extractAll env fs dir entries).1 q = fs q := by
  intro entries
  induction entries with
  | nil => intro fs q _; rfl
  | cons name rest ih =>
      intro fs q hq
      simp only [List.mem_cons, not_or] at hq
      by_cases hw : env.writeOk ⟨dir, name⟩
      · simp only [extractAll, hw, if_true]
        rw [ih _ _ hq.2]
        have hne : q ≠ ⟨dir, name⟩ := by
          intro h
          exact hq.1 (by rw [h])
        simp [fsWrite, hne]
      · simp only [extractAll, hw]
        simp

/-- When every entry write succeeds, `extractall` succeeds and each entry
file ends with that entry's bytes. -/
theorem extractAll_ok (env : Env) (dir : String) :
    ∀ (entries : List String) (fs : FS),
      (entries.all (fun n => env.writeOk ⟨dir, n⟩)) = true →
      (extractAll env fs dir entries).2 = true ∧
        ∀ n ∈ entries,
          (extractAll env fs dir entries).1 ⟨dir, n⟩ = some (env.entryBytes n) := by
  intro entries
  induction entries with
  | nil =>
      intro fs _
      exact ⟨rfl, by intro n hn; cases hn⟩
  | cons name rest ih =>
      intro fs hall
      simp only [List.all_cons, Bool.and_eq_true] at hall
      have hw : env.writeOk ⟨dir, name⟩ = true := hall.1
      simp only [extractAll, hw, if_true]
      obtain ⟨h2, h3⟩ := ih (fsWrite fs ⟨dir, name⟩ (env.entryBytes name)) hall.2
      refine ⟨h2, ?_⟩
      intro n hn
      rcases List.mem_cons.mp hn with rfl | hn2
      · by_cases hmem : n ∈ rest
        · exact h3 n hmem
        · rw [extractAll_unchanged env dir rest _ ⟨dir, n⟩ hmem]
          simp [fsWrite]
      · exact h3 n hn2

/-- The pool's job results are keyed by the executed jobs, in order. -/
theorem runJobs_map_fst (env : Env) (ddir : String) :
    ∀ (l : List String) (fs : FS), ((runJobs env fs ddir l).2.map Prod.fst) = l := by
  intro l
  induction l with
  | nil => intro fs; rfl
  | cons uri rest ih => intro fs; simp [runJobs, ih]

/-- The cooperative tasks' results are keyed by the executed tasks,
in order. -/
theorem runJobsAsync_map_fst (env : Env) (ddir : String) :
    ∀ (l : List String) (fs : FS),
      ((runJobsAsync env fs ddir l).2.map Prod.fst) = l := by
  intro l
  induction l with
  | nil => intro fs; rfl
  | cons uri rest ih => intro fs; simp [runJobsAsync, ih]

/-- A cooperative per-locator task never stores an exception: both its
fetch and its offloaded extraction swallow every exception. -/
theorem download_and_extract_async_ok (env : Env) (fs : FS) (uri ddir : String) :
    (download_and_extract_async env fs uri ddir).2 = Except.ok () := by
  simp only [download_and_extract_async]
  cases hx : (download_file_async env fs uri ddir).2 <;> simp [hx]

/-- Every result stored by a cooperative run is a success. -/
theorem runJobsAsync_all_ok (env : Env) (ddir : String) :
    ∀ (l : List String) (fs : FS),
      ((runJobsAsync env fs ddir l).2.all (fun pr => exceptIsOk pr.2)) = true := by
  intro l
  induction l with
  | nil => intro fs; rfl
  | cons uri rest ih =>
      intro fs
      simp only [runJobsAsync, List.all_cons, Bool.and_eq_true]
      refine ⟨?_, ih _⟩
      rw [download_and_extract_async_ok]
      rfl

/-- The instrumented per-locator unit agrees with
`download_and_extract_sync`: same filesystem effect, and an exception is
raised exactly when the outcome records one. -/
theorem outcome_agrees_with_sync (env : Env) (fs : FS) (uri ddir : String) :
    download_and_extract_sync env fs uri ddir =
      ((download_and_extract_outcome env fs uri ddir).1,
       match (download_and_extract_outcome env fs uri ddir).2 with
       | Outcome.raised e => Except.error e
       | _ => Except.ok ()) := by
  simp only [download_and_extract_sync, download_and_extract_outcome]
  cases hx : (download_file_sync env fs uri ddir).2 with
  | error e => simp [hx]
  | ok o =>
      cases o with
      | none => simp [hx]
      | some fp =>
          cases hz : (extract_zip_file env (download_file_sync env fs uri ddir).1 fp).2 <;>
            simp [hx, hz]

/-! ### Claims -/

/-- Claim C1: for every archive path given to the unpacker, after
`extract_zip_file` completes — extraction success, invalid archive, or
missing file — the archive file no longer exists on disk. -/
theorem claim_archive_gone (env : Env) (fs : FS) (p : FPath) :
    (extract_zip_file env fs p).1 p = none :=
  extract_zip_file_removes env fs p

/-- Claim C2: for a locator whose fetch produces a failure record or whose
extraction fails, `download_and_extract_sync` returns normally, and the
sequential loop proceeds to the next locator. -/
theorem claim_seq_failure_contained (env : Env) (fs : FS) (ddir uri : String)
    (rest : List String) (fp : FPath)
    (h : (download_file_sync env fs uri ddir).2 = Except.ok none ∨
         ((download_file_sync env fs uri ddir).2 = Except.ok (some fp) ∧
          (extract_zip_file env (download_file_sync env fs uri ddir).1 fp).2 = none)) :
    (download_and_extract_sync env fs uri ddir).2 = Except.ok () ∧
    (main_sync_loop env fs ddir (uri :: rest)).attempted =
      uri :: (main_sync_loop env (download_and_extract_sync env fs uri ddir).1
        ddir rest).attempted := by
  have hok : (download_and_extract_sync env fs uri ddir).2 = Except.ok () := by
    rcases h with h1 | ⟨h1, _⟩ <;> simp [download_and_extract_sync, h1]
  refine ⟨hok, ?_⟩
  simp only [main_sync_loop]
  rw [hok]

/-- Witness for C2: a 403-style fetch failure is contained and the loop
moves on. -/
theorem claim_seq_failure_contained_witness :
    ((download_file_sync envFail fsEmpty uriW ddirW).2 = Except.ok none ∨
     ((download_file_sync envFail fsEmpty uriW ddirW).2 = Except.ok (some pDummy) ∧
      (extract_zip_file envFail (download_file_sync envFail fsEmpty uriW ddirW).1
        pDummy).2 = none)) ∧
    ((download_and_extract_sync envFail fsEmpty uriW ddirW).2 = Except.ok () ∧
     (main_sync_loop envFail fsEmpty ddirW (uriW :: [])).attempted =
       uriW :: (main_sync_loop envFail
         (download_and_extract_sync envFail fsEmpty uriW ddirW).1 ddirW []).attempted) :=
  ⟨Or.inl rfl,
   claim_seq_failure_contained envFail fsEmpty ddirW uriW [] pDummy (Or.inl rfl)⟩

/-- Claim C3: pooled and cooperative orchestrators run one unit per
configured locator, exactly once each (the executed units are a
permutation of the nodup configured list), materialise every unit's result
before returning, and a cooperative unit never stores an exception. -/
theorem claim_pooled_async_exactly_once (env : Env) (fs : FS) (exec : List String)
    (hperm : exec.Perm download_uris) (hmk : env.mkdirOk = true) :
    download_uris.Nodup ∧
    ((main_threaded env fs exec).results.map Prod.fst).Perm download_uris ∧
    ((main_async env fs exec).results.map Prod.fst).Perm download_uris ∧
    (main_threaded env fs exec).results.length = download_uris.length ∧
    (main_async env fs exec).results.length = download_uris.length ∧
    ((main_async env fs exec).results.all (fun pr => exceptIsOk pr.2)) = true := by
  have hthr : (main_threaded env fs exec).results = (runJobs env fs ddirW exec).2 := by
    simp [main_threaded, create_downloads_directory, hmk, ddirW]
  have hasy : (main_async env fs exec).results = (runJobsAsync env fs ddirW exec).2 := by
    simp [main_async, create_downloads_directory, hmk, ddirW]
  have h1 : ((main_threaded env fs exec).results.map Prod.fst) = exec := by
    rw [hthr, runJobs_map_fst]
  have h2 : ((main_async env fs exec).results.map Prod.fst) = exec := by
    rw [hasy, runJobsAsync_map_fst]
  refine ⟨by decide, ?_, ?_, ?_, ?_, ?_⟩
  · rw [h1]; exact hperm
  · rw [h2]; exact hperm
  · calc (main_threaded env fs exec).results.length
        = ((main_threaded env fs exec).results.map Prod.fst).length :=
          (List.length_map _ _).symm
      _ = exec.length := by rw [h1]
      _ = download_uris.length := hperm.length_eq
  · calc (main_async env fs exec).results.length
        = ((main_async env fs exec).results.map Prod.fst).length :=
          (List.length_map _ _).symm
      _ = exec.length := by rw [h2]
      _ = download_uris.length := hperm.length_eq
  · rw [hasy]
    exact runJobsAsync_all_ok env ddirW exec fs

/-- Witness for C3 with the identity completion order. -/
theorem claim_pooled_async_exactly_once_witness :
    download_uris.Perm download_uris ∧ envAll.mkdirOk = true ∧
    (download_uris.Nodup ∧
     ((main_threaded envAll fsEmpty download_uris).results.map Prod.fst).Perm download_uris ∧
     ((main_async envAll fsEmpty download_uris).results.map Prod.fst).Perm download_uris ∧
     (main_threaded envAll fsEmpty download_uris).results.length = download_uris.length ∧
     (main_async envAll fsEmpty download_uris).results.length = download_uris.length ∧
     ((main_async envAll fsEmpty download_uris).results.all
       (fun pr => exceptIsOk pr.2)) = true) :=
  ⟨List.Perm.refl _, rfl,
   claim_pooled_async_exactly_once envAll fsEmpty download_uris (List.Perm.refl _) rfl⟩

/-- Claim C4: a non-2xx status or transport error yields a failure record
(`None`) rather than a path, no extraction is attempted for the locator,
and — unless the error struck mid-body, which tolerably leaves a partial
file — the filesystem is untouched, so an HTTP error status never creates
a file for the locator. -/
theorem claim_fetch_error_contained (env : Env) (fs : FS) (uri ddir : String)
    (written : List Nat)
    (h : env.http uri request_timeout_sync = HttpResult.statusError ∨
         env.http uri request_timeout_sync = HttpResult.transportEarly ∨
         (env.http uri request_timeout_sync = HttpResult.transportMid written ∧
          env.writeOk ⟨ddir, extract_filename_from_uri uri⟩ = true)) :
    (download_file_sync env fs uri ddir).2 = Except.ok none ∧
    (download_and_extract_sync env fs uri ddir).1 = (download_file_sync env fs uri ddir).1 ∧
    (download_and_extract_sync env fs uri ddir).2 = Except.ok () ∧
    (env.http uri request_timeout_sync = HttpResult.transportMid written ∨
     (download_file_sync env fs uri ddir).1 = fs) := by
  have hfetch : (download_file_sync env fs uri ddir).2 = Except.ok none := by
    rcases h with h1 | h1 | ⟨h1, h2⟩
    · simp [download_file_sync, h1]
    · simp [download_file_sync, h1]
    · simp [download_file_sync, h1, h2]
  refine ⟨hfetch, ?_, ?_, ?_⟩
  · simp [download_and_extract_sync, hfetch]
  · simp [download_and_extract_sync, hfetch]
  · rcases h with h1 | h1 | ⟨h1, h2⟩
    · exact Or.inr (by simp [download_file_sync, h1])
    · exact Or.inr (by simp [download_file_sync, h1])
    · exact Or.inl h1

/-- Witness for C4 at a 403-style response. -/
theorem claim_fetch_error_contained_witness :
    (envFail.http uriW request_timeout_sync = HttpResult.statusError ∨
     envFail.http uriW request_timeout_sync = HttpResult.transportEarly ∨
     (envFail.http uriW request_timeout_sync = HttpResult.transportMid [] ∧
      envFail.writeOk ⟨ddirW, extract_filename_from_uri uriW⟩ = true)) ∧
    ((download_file_sync envFail fsEmpty uriW ddirW).2 = Except.ok none ∧
     (download_and_extract_sync envFail fsEmpty uriW ddirW).1 =
       (download_file_sync envFail fsEmpty uriW ddirW).1 ∧
     (download_and_extract_sync envFail fsEmpty uriW ddirW).2 = Except.ok () ∧
     (envFail.http uriW request_timeout_sync = HttpResult.transportMid [] ∨
      (download_file_sync envFail fsEmpty uriW ddirW).1 = fsEmpty)) :=
  ⟨Or.inl (by decide),
   claim_fetch_error_contained envFail fsEmpty uriW ddirW [] (Or.inl (by decide))⟩

/-- Claim C5: for a valid archive, `extract_zip_file` returns exactly the
archive's entry-name list, writes every entry into the archive's parent
directory, and leaves the archive absent from disk. -/
theorem claim_extract_valid_archive (env : Env) (fs : FS) (p : FPath)
    (zb : List Nat) (entries : List String)
    (hz : fs p = some zb) (hp : env.parseZip zb = some entries)
    (hw : (entries.all (fun n => env.writeOk ⟨p.dir, n⟩)) = true) :
    (extract_zip_file env fs p).2 = some entries ∧
    (extract_zip_file env fs p).1 p = none ∧
    ((entries.filter (fun n => n ≠ p.name)).all
      (fun n => (extract_zip_file env fs p).1 ⟨p.dir, n⟩ ==
        some (env.entryBytes n))) = true := by
  obtain ⟨hok, hfiles⟩ := extractAll_ok env p.dir entries fs hw
  have hres : extract_zip_file env fs p =
      (fsRemove (extractAll env fs p.dir entries).1 p, some entries) := by
    simp [extract_zip_file, hz, hp, hok]
  refine ⟨by rw [hres], by rw [hres]; simp [fsRemove], ?_⟩
  rw [hres]
  rw [List.all_eq_true]
  intro n hn
  have hmemf := List.mem_filter.mp hn
  have hmem : n ∈ entries := hmemf.1
  have hne : n ≠ p.name := by simpa using hmemf.2
  have hq : (⟨p.dir, n⟩ : FPath) ≠ p := by
    intro hcontra
    exact hne (congrArg FPath.name hcontra)
  simp only [fsRemove]
  rw [if_neg hq, hfiles n hmem]
  simp

/-- Witness for C5: an archive with entries `a.csv` and `b.csv` reports
exactly those names and disappears. -/
theorem claim_extract_valid_archive_witness :
    fsWithPair pW = some [9] ∧
    envAll.parseZip [9] = some ["a.csv", "b.csv"] ∧
    ((["a.csv", "b.csv"] : List String).all (fun n => envAll.writeOk ⟨pW.dir, n⟩)) = true ∧
    ((extract_zip_file envAll fsWithPair pW).2 = some ["a.csv", "b.csv"] ∧
     (extract_zip_file envAll fsWithPair pW).1 pW = none ∧
     (((["a.csv", "b.csv"] : List String).filter (fun n => n ≠ pW.name)).all
       (fun n => (extract_zip_file envAll fsWithPair pW).1 ⟨pW.dir, n⟩ ==
         some (envAll.entryBytes n))) = true) :=
  ⟨by decide, by decide, by decide,
   claim_extract_valid_archive envAll fsWithPair pW [9] ["a.csv", "b.csv"]
     (by decide) (by decide) (by decide)⟩

/-- Counterexample to C6 as stated: a file-write failure during extraction
in the sequential strategy is caught by the unpacker's blanket handler, so
the unit returns normally instead of propagating an exception; and a write
failure during a cooperative fetch is caught too, so the task result is a
success rather than a rejection. -/
theorem claim_fs_error_propagation_refuted :
    (download_and_extract_sync envEntryWriteFails fsEmpty uriW ddirW).2 = Except.ok () ∧
    envEntryWriteFails.writeOk ⟨ddirW, "a.csv"⟩ = false ∧
    envEntryWriteFails.http uriW request_timeout_sync = HttpResult.ok [7] ∧
    envEntryWriteFails.parseZip [7] = some ["a.csv"] ∧
    envEntryWriteFails.writeOk ⟨ddirW, extract_filename_from_uri uriW⟩ = true ∧
    (download_and_extract_async envWriteFails fsEmpty uriW ddirW).2 = Except.ok () ∧
    envWriteFails.writeOk ⟨ddirW, extract_filename_from_uri uriW⟩ = false ∧
    envWriteFails.httpAsync uriW request_timeout_async = HttpResult.ok [7] :=
  ⟨rfl, by decide, by decide, by decide, by decide, rfl, by decide, by decide⟩

/-- Amended C6: directory-creation failures and write failures during a
blocking fetch propagate as uncaught exceptions (a `mkdir` failure aborts
the sequential run before any locator is attempted; a fetch write failure
fails that unit), but a write failure during extraction is caught by the
unpacker's blanket handler (failure result, archive still deleted), and in
the cooperative strategy a fetch write failure is caught and recorded as a
fetch failure, so tasks are never rejected. -/
theorem claim_fs_error_policy (env : Env) (fs : FS) (uri ddir : String)
    (bytes zbytes : List Nat) (p : FPath) (name : String) (rest : List String)
    (h1 : env.mkdirOk = false)
    (h2 : env.http uri request_timeout_sync = HttpResult.ok bytes)
    (h3 : env.writeOk ⟨ddir, extract_filename_from_uri uri⟩ = false)
    (h4 : fs p = some zbytes)
    (h5 : env.parseZip zbytes = some (name :: rest))
    (h6 : env.writeOk ⟨p.dir, name⟩ = false) :
    main_sync env fs = ⟨fs, Except.error PyExc.osError, []⟩ ∧
    (download_file_sync env fs uri ddir).2 = Except.error PyExc.osError ∧
    (download_and_extract_sync env fs uri ddir).2 = Except.error PyExc.osError ∧
    (download_and_extract_async env fs uri ddir).2 = Except.ok () ∧
    (extract_zip_file env fs p).2 = none ∧
    (extract_zip_file env fs p).1 p = none := by
  have hfetch : (download_file_sync env fs uri ddir).2 = Except.error PyExc.osError := by
    simp [download_file_sync, h2, h3]
  refine ⟨?_, hfetch, ?_, ?_, ?_, ?_⟩
  · simp [main_sync, create_downloads_directory, h1]
  · simp [download_and_extract_sync, hfetch]
  · exact download_and_extract_async_ok env fs uri ddir
  · simp [extract_zip_file, h4, h5, extractAll, h6]
  · exact extract_zip_file_removes env fs p

/-- Witness for the amended C6. -/
theorem claim_fs_error_policy_witness :
    envNoMkdir.mkdirOk = false ∧
    envNoMkdir.http uriW request_timeout_sync = HttpResult.ok [7] ∧
    envNoMkdir.writeOk ⟨ddirW, extract_filename_from_uri uriW⟩ = false ∧
    fsWithSingle pW = some [7] ∧
    envNoMkdir.parseZip [7] = some ("a.csv" :: []) ∧
    envNoMkdir.writeOk ⟨pW.dir, "a.csv"⟩ = false ∧
    (main_sync envNoMkdir fsWithSingle = ⟨fsWithSingle, Except.error PyExc.osError, []⟩ ∧
     (download_file_sync envNoMkdir fsWithSingle uriW ddirW).2 = Except.error PyExc.osError ∧
     (download_and_extract_sync envNoMkdir fsWithSingle uriW ddirW).2 =
       Except.error PyExc.osError ∧
     (download_and_extract_async envNoMkdir fsWithSingle uriW ddirW).2 = Except.ok () ∧
     (extract_zip_file envNoMkdir fsWithSingle pW).2 = none ∧
     (extract_zip_file envNoMkdir fsWithSingle pW).1 pW = none) :=
  ⟨rfl, by decide, by decide, by decide, by decide, by decide,
   claim_fs_error_policy envNoMkdir fsWithSingle uriW ddirW [7] [7] pW "a.csv" []
     rfl (by decide) (by decide) (by decide) (by decide) (by decide)⟩

/-- Counterexample to C7 as stated: an empty but valid archive yields an
extracted-entries result that is empty, so neither a non-empty result nor
a failure record exists for that locator — the "never neither" clause
fails when "result" is read as "non-empty result". -/
theorem claim_outcome_nonempty_refuted :
    ¬ (hasNonemptyResult (download_and_extract_outcome envEmptyZip fsEmpty uriW ddirW).2 ∨
       hasFailureRecord (download_and_extract_outcome envEmptyZip fsEmpty uriW ddirW).2) := by
  have hoc : (download_and_extract_outcome envEmptyZip fsEmpty uriW ddirW).2 =
      Outcome.extracted [] := by decide
  rw [hoc]
  simp [hasNonemptyResult, hasFailureRecord]

/-- Amended C7: for every locator whose unit of work completes without an
uncaught exception, exactly one of the following holds: an
extracted-entries result (possibly empty) exists, or a failure record
exists — never both, never neither. -/
theorem claim_outcome_exclusive (env : Env) (fs : FS) (uri ddir : String)
    (h : ((download_and_extract_outcome env fs uri ddir).2).isRaised = false) :
    (hasResult (download_and_extract_outcome env fs uri ddir).2 ∨
     hasFailureRecord (download_and_extract_outcome env fs uri ddir).2) ∧
    ¬ (hasResult (download_and_extract_outcome env fs uri ddir).2 ∧
       hasFailureRecord (download_and_extract_outcome env fs uri ddir).2) := by
  cases hoc : (download_and_extract_outcome env fs uri ddir).2 with
  | extracted entries =>
      refine ⟨Or.inl ⟨entries, rfl⟩, ?_⟩
      rintro ⟨-, hf | hf⟩ <;> simp [hasFailureRecord] at hf
  | fetchFailed =>
      refine ⟨Or.inr (Or.inl rfl), ?_⟩
      rintro ⟨⟨e2, he⟩, -⟩
      cases he
  | extractFailed =>
      refine ⟨Or.inr (Or.inr rfl), ?_⟩
      rintro ⟨⟨e2, he⟩, -⟩
      cases he
  | raised e =>
      rw [hoc] at h
      simp [Outcome.isRaised] at h

/-- Witness for the amended C7 at a successful run. -/
theorem claim_outcome_exclusive_witness :
    ((download_and_extract_outcome envAll fsEmpty uriW ddirW).2).isRaised = false ∧
    ((hasResult (download_and_extract_outcome envAll fsEmpty uriW ddirW).2 ∨
      hasFailureRecord (download_and_extract_outcome envAll fsEmpty uriW ddirW).2) ∧
     ¬ (hasResult (download_and_extract_outcome envAll fsEmpty uriW ddirW).2 ∧
        hasFailureRecord (download_and_extract_outcome envAll fsEmpty uriW ddirW).2)) :=
  ⟨by decide, claim_outcome_exclusive envAll fsEmpty uriW ddirW (by decide)⟩

/-- Claim C8: a non-interactive standard input runs the sequential
strategy automatically; interactively, input "2" runs the pooled strategy,
"3" the cooperative one, and any other input — empty included, as well as
EOF — runs the sequential strategy as the default. -/
theorem claim_entry_dispatch (s : String)
    (h2 : py_strip s ≠ "2") (h3 : py_strip s ≠ "3") :
    main_strategy StdinState.notInteractive = Strategy.sequential ∧
    main_strategy (StdinState.interactive (some ("2"))) = Strategy.pooled ∧
    main_strategy (StdinState.interactive (some ("3"))) = Strategy.cooperative ∧
    main_strategy (StdinState.interactive (some (""))) = Strategy.sequential ∧
    main_strategy (StdinState.interactive none) = Strategy.sequential ∧
    main_strategy (StdinState.interactive (some s)) = Strategy.sequential := by
  refine ⟨rfl, by decide, by decide, by decide, rfl, ?_⟩
  simp [main_strategy, h2, h3]

/-- Witness for C8 at the input "hello". -/
theorem claim_entry_dispatch_witness :
    py_strip ("hello") ≠ "2" ∧ py_strip ("hello") ≠ "3" ∧
    (main_strategy StdinState.notInteractive = Strategy.sequential ∧
     main_strategy (StdinState.interactive (some ("2"))) = Strategy.pooled ∧
     main_strategy (StdinState.interactive (some ("3"))) = Strategy.cooperative ∧
     main_strategy (StdinState.interactive (some (""))) = Strategy.sequential ∧
     main_strategy (StdinState.interactive none) = Strategy.sequential ∧
     main_strategy (StdinState.interactive (some ("hello"))) = Strategy.sequential) :=
  ⟨by decide, by decide, claim_entry_dispatch ("hello") (by decide) (by decide)⟩

/-- Claim C9: the blocking fetcher issues its GET with a 30-second timeout
and the cooperative fetcher with 60 seconds — each depends on the HTTP
oracle only at its own timeout — and both stream the body in chunks of at
most 8192 bytes whose concatenation is exactly the payload. -/
theorem claim_timeouts_and_chunking (env1 env2 : Env) (fs : FS) (uri ddir : String)
    (bytes : List Nat)
    (hh : env1.http uri request_timeout_sync = env2.http uri request_timeout_sync)
    (hw : env1.writeOk = env2.writeOk)
    (ha : env1.httpAsync uri request_timeout_async = env2.httpAsync uri request_timeout_async) :
    request_timeout_sync = 30 ∧ request_timeout_async = 60 ∧ chunk_size = 8192 ∧
    download_file_sync env1 fs uri ddir = download_file_sync env2 fs uri ddir ∧
    download_file_async env1 fs uri ddir = download_file_async env2 fs uri ddir ∧
    writeChunks (chunksOf chunk_size bytes) = bytes ∧
    ((chunksOf chunk_size bytes).all (fun c => c.length ≤ chunk_size)) = true := by
  refine ⟨rfl, rfl, rfl, ?_, ?_, ?_, ?_⟩
  · simp only [download_file_sync, hh, hw]
  · simp only [download_file_async, ha, hw]
  · exact writeChunks_chunksOf chunk_size (by decide) bytes
  · have hsz := chunksOfFuel_sizes bytes.length chunk_size bytes (Nat.le_refl _) (by decide)
    simpa [chunksOf] using hsz

/-- Witness for C9 on a three-byte payload. -/
theorem claim_timeouts_and_chunking_witness :
    envAll.http uriW request_timeout_sync = envAll.http uriW request_timeout_sync ∧
    envAll.writeOk = envAll.writeOk ∧
    envAll.httpAsync uriW request_timeout_async = envAll.httpAsync uriW request_timeout_async ∧
    (request_timeout_sync = 30 ∧ request_timeout_async = 60 ∧ chunk_size = 8192 ∧
     download_file_sync envAll fsEmpty uriW ddirW = download_file_sync envAll fsEmpty uriW ddirW ∧
     download_file_async envAll fsEmpty uriW ddirW = download_file_async envAll fsEmpty uriW ddirW ∧
     writeChunks (chunksOf chunk_size [0, 1, 2]) = [0, 1, 2] ∧
     ((chunksOf chunk_size [0, 1, 2]).all (fun c => c.length ≤ chunk_size)) = true) :=
  ⟨rfl, rfl, rfl,
   claim_timeouts_and_chunking envAll envAll fsEmpty uriW ddirW [0, 1, 2] rfl rfl rfl⟩

/-- Claim C10: a valid archive with zero entries is classified as a
success — the extraction reports the empty entry list, not a failure —
and the archive file is still deleted afterward. -/
theorem claim_empty_archive_success (env : Env) (fs : FS) (p : FPath) (zb : List Nat)
    (hz : fs p = some zb) (hp : env.parseZip zb = some []) :
    (extract_zip_file env fs p).2 = some [] ∧
    (extract_zip_file env fs p).1 p = none := by
  refine ⟨?_, extract_zip_file_removes env fs p⟩
  simp [extract_zip_file, hz, hp, extractAll]

/-- Witness for C10 at a concrete empty archive. -/
theorem claim_empty_archive_success_witness :
    fsWithEmptyZip pW = some [5] ∧ envEmptyZip.parseZip [5] = some [] ∧
    ((extract_zip_file envEmptyZip fsWithEmptyZip pW).2 = some [] ∧
     (extract_zip_file envEmptyZip fsWithEmptyZip pW).1 pW = none) :=
  ⟨by decide, by decide,
   claim_empty_archive_success envEmptyZip fsWithEmptyZip pW [5] (by decide) (by decide)⟩
